import Mathlib

/-!
Verification of the render-handler component (HandlerRenderCreateJS) of the
Platypus entity/component framework.

The component is embedded shallowly: JavaScript numbers are `Rat`; a number
field that may still be `undefined` (and the `NaN` it breeds in arithmetic)
is `Option Rat`, with comparisons against `none` evaluating to `false` as in
JavaScript; the reusable render message, a plain JS object, is an
insertion-ordered association list; the externally observable effects of one
`tick` (the child broadcast, the addition trigger, the telemetry reports and
the stage update) are returned as an explicit list of actions.
-/

namespace Platypus

/-- A value stored in a render-message slot: the numeric `delta`, or the
reference to a stage object (identified by a tag, since only identity of the
stage reference is observable to children). -/
inductive JSVal where
  | num (q : Rat)
  | stageRef (tag : Nat)
  deriving DecidableEq

/-- A JS object used as a string-keyed map (the render message, the pending
extra-content map): insertion-ordered association list. -/
abbrev Msg := List (String × JSVal)

/-- `m[k] = v`: overwrite in place when the key exists, else append (JS
object key insertion order). -/
def setKey : Msg → String → JSVal → Msg
  | [], k, v => [(k, v)]
  | (k', v') :: m, k, v => if k' = k then (k, v) :: m else (k', v') :: setKey m k v

/-- `m[k]`, `none` when the key is absent. -/
def lookupKey : Msg → String → Option JSVal
  | [], _ => none
  | (k', v') :: m, k => if k' = k then some v' else lookupKey m k

/-- `k in m`. -/
def hasKey (m : Msg) (k : String) : Bool :=
  (lookupKey m k).isSome

/-- The keys of the object in insertion order (`for (i in m)`). -/
def keysOf (m : Msg) : List String :=
  m.map Prod.fst

/-- `for (i in src) { dst[i] = src[i]; }` -/
def mergeKeys (dst src : Msg) : Msg :=
  src.foldl (fun acc kv => setKey acc kv.1 kv.2) dst

/-- `for (i in ks) { delete m[i]; }` — net effect: every pair whose key is
listed is dropped, the order of the survivors is kept. -/
def deleteKeys (m : Msg) (ks : List String) : Msg :=
  m.filter (fun kv => !(ks.contains kv.1))

/-- JS `+` on possibly-undefined numbers: `undefined + x` is `NaN`,
collapsed here into `none`. -/
def jsAdd : Option Rat → Option Rat → Option Rat
  | some a, some b => some (a + b)
  | _, _ => none

/-- JS `a >= b`: `false` whenever a side is `undefined`/`NaN`. -/
def jsGe : Option Rat → Option Rat → Bool
  | some a, some b => decide (a ≥ b)
  | _, _ => false

/-- JS `a <= b`: `false` whenever a side is `undefined`/`NaN`. -/
def jsLe : Option Rat → Option Rat → Bool
  | some a, some b => decide (a ≤ b)
  | _, _ => false

/-- `this.camera`. The constructor writes `left` and `top`; the cull pass
reads `x` and `y`, which only the camera-update handler ever writes, so they
are `Option Rat` (`none` = still `undefined`). -/
structure Camera where
  left : Rat
  top : Rat
  x : Option Rat
  y : Option Rat
  width : Rat
  height : Rat
  deriving DecidableEq

/-- `this.camera` as the constructor leaves it: `left`/`top` zeroed, `x`/`y`
never assigned. -/
def initCamera : Camera :=
  { left := 0, top := 0, x := none, y := none, width := 0, height := 0 }

/-- A transformed-bounds rectangle (`child.getTransformedBounds()`). -/
structure Bounds where
  x : Rat
  y : Rat
  width : Rat
  height : Rat
  deriving DecidableEq

/-- A display node on the stage, with the fields the tick handler inspects
and mutates; `bounds` is what `getTransformedBounds()` returns (`none` when
the library reports no bounds). -/
structure Child where
  name : String
  hidden : Bool
  visible : Bool
  paused : Bool
  z : Rat
  bounds : Option Bounds
  deriving DecidableEq

/-- The stage state the component reads and writes: the child list, the
externally-set reorder flag, and the scale the camera-update transform
assigns. -/
structure Stage where
  children : List Child
  reorder : Bool
  scaleX : Rat
  scaleY : Rat
  deriving DecidableEq

/-- The component state: `stage` is `none` once `destroy` has nulled the
reference, `extraContent` is `none` while still the literal `false`,
`paused` is the countdown (`0` unpaused — the initial JS `undefined` behaves
as `0` in every use the component makes of it — `-1` the indefinite
marker). -/
structure Handler where
  stage : Option Stage
  camera : Camera
  renderMessage : Msg
  handleChildren : Bool
  extraContent : Option Msg
  paused : Rat
  deriving DecidableEq

/-- One externally observable effect of a tick, in program order. -/
inductive Action where
  | handleRender (m : Msg)
  | handleRenderAddition (m : Msg)
  | timeElapsed (phase : String)
  | stageUpdate
  deriving DecidableEq

/-- The closed-interval overlap test of the cull pass, exactly as the
source conjoins the four comparisons (false on an undefined camera origin,
as in JS). -/
def boundsOverlap (cam : Camera) (b : Bounds) : Bool :=
  jsGe (some (b.x + b.width)) cam.x &&
  jsLe (some b.x) (jsAdd cam.x (some cam.width)) &&
  jsGe (some (b.y + b.height)) cam.y &&
  jsLe (some b.y) (jsAdd cam.y (some cam.height))

/-- The visibility half of the tick loop's treatment of one stage child:
force-hide, else — unless exempted by the managed-name sentinel — cull
against the camera (absent bounds mean always visible). -/
def cullVisibility (cam : Camera) (c : Child) : Child :=
  if c.hidden then { c with visible := false }
  else if c.name ≠ "entity-managed" then
    match c.bounds with
    | none => { c with visible := true }
    | some b =>
      if boundsOverlap cam b then { c with visible := true }
      else { c with visible := false }
  else c

/-- The pause-propagation half, run on the child as the visibility half
left it (`p` is `this.paused` after the countdown step of the same tick):
a visible child is unpaused when the handler is unpaused, paused when the
handler is paused. -/
def propagatePause (p : Rat) (c : Child) : Child :=
  if c.visible then
    if c.paused && (p == 0) then { c with paused := false }
    else if p != 0 then { c with paused := true }
    else c
  else c

/-- One stage child's treatment inside the tick loop, both halves in
program order. -/
def cullChild (cam : Camera) (p : Rat) (c : Child) : Child :=
  propagatePause p (cullVisibility cam c)

/-- Ascending depth-key order, the comparator `(a, b) => a.z - b.z`. -/
def zLe (a b : Child) : Prop :=
  a.z ≤ b.z

instance : DecidableRel zLe :=
  fun a b => inferInstanceAs (Decidable (a.z ≤ b.z))

instance : IsTotal Child zLe :=
  ⟨fun a b => le_total a.z b.z⟩

instance : IsTrans Child zLe :=
  ⟨fun _ _ _ hab hbc => le_trans hab hbc⟩

/-- Modelled from the spec: `stage.sortChildren` belongs to the external
scene-graph library; the spec fixes its boundary as a stable sort by the
given comparator, here ascending `z`. -/
def sortChildren (l : List Child) : List Child :=
  List.insertionSort zLe l

/-- The conditional re-sort step of tick: sort exactly when the reorder
flag is set, clearing it. -/
def applySort (st : Stage) : Stage :=
  if st.reorder then { st with reorder := false, children := sortChildren st.children }
  else st

/-- The pause bookkeeping at the top of tick: a positive countdown loses
the elapsed delta and is clamped at 0. -/
def tickPaused (p delta : Rat) : Rat :=
  if p > 0 then (if p - delta < 0 then 0 else p - delta) else p

/-- The "pause-render" handler; the argument models `resp && resp.time`
(`none` when `resp` is absent or carries no `time` field). -/
def pauseRender (respTime : Option Rat) : Rat :=
  match respTime with
  | some t => if t ≠ 0 then t else -1
  | none => -1

/-- The "unpause-render" handler. -/
def unpauseRender : Rat :=
  0

/-- The "tick"/"render" handler: sets `delta`, runs the pause countdown,
dispatches (primary: merge pending extra content, broadcast when the owner
has `triggerEventOnChildren`, then delete the merged keys from both the
message and the pending map; secondary: trigger the addition), and — only
when the stage reference is present — culls every child, conditionally
re-sorts, reports Render-Prep telemetry, updates the stage and reports
Render telemetry. Returns the new state and the observable actions in
order. -/
def tick (h : Handler) (hasTriggerOnChildren : Bool) (delta : Rat) :
    Handler × List Action :=
  let m0 := setKey h.renderMessage "delta" (JSVal.num delta)
  let p' := tickPaused h.paused delta
  let dispatched : Msg × Option Msg × List Action :=
    if h.handleChildren then
      match h.extraContent with
      | some ec =>
        let merged := mergeKeys m0 ec
        (deleteKeys merged (keysOf ec), some (deleteKeys ec (keysOf ec)),
          if hasTriggerOnChildren then [Action.handleRender merged] else [])
      | none =>
        (m0, none, if hasTriggerOnChildren then [Action.handleRender m0] else [])
    else
      (m0, h.extraContent, [Action.handleRenderAddition m0])
  match h.stage with
  | none =>
    ({ h with renderMessage := dispatched.1, extraContent := dispatched.2.1,
              paused := p' },
      dispatched.2.2)
  | some st =>
    let st' := applySort { st with children := st.children.map (cullChild h.camera p') }
    ({ h with renderMessage := dispatched.1, extraContent := dispatched.2.1,
              paused := p', stage := some st' },
      dispatched.2.2 ++
        [Action.timeElapsed "Render-Prep", Action.stageUpdate, Action.timeElapsed "Render"])

/-- The camera-update payload (`cameraInfo`). -/
structure CameraInfo where
  viewportLeft : Rat
  viewportTop : Rat
  viewportWidth : Rat
  viewportHeight : Rat
  scaleX : Rat
  scaleY : Rat
  deriving DecidableEq

/-- The part of the "camera-update" handler that writes `this.camera`: the
viewport rectangle is copied into `x`/`y`/`width`/`height`. -/
def cameraUpdateCamera (cam : Camera) (ci : CameraInfo) : Camera :=
  { cam with x := some ci.viewportLeft, y := some ci.viewportTop,
             width := ci.viewportWidth, height := ci.viewportHeight }

/-- The "camera-update" handler on the modelled state: camera rectangle and
the stage scale `setTransform` assigns (`scale * devicePixelRatio`); canvas
sizing and rotation act on unmodelled DOM state. -/
def cameraUpdate (h : Handler) (dpr : Rat) (ci : CameraInfo) : Handler :=
  { h with camera := cameraUpdateCamera h.camera ci,
           stage := h.stage.map (fun st =>
             { st with scaleX := ci.scaleX * dpr, scaleY := ci.scaleY * dpr }) }

/-- `destroy`: the stage reference is nulled (listener and DOM detachment
act on unmodelled state). -/
def destroy (h : Handler) : Handler :=
  { h with stage := none }

/-- The Pointer Translator's `setXY` conversion, per axis:
`(stagePixel / devicePixelRatio) / stageScale + cameraOrigin`, with JS
undefined propagation for a never-updated camera origin. -/
def setXY (dpr scaleX scaleY : Rat) (camX camY : Option Rat)
    (stageX stageY : Rat) : Option Rat × Option Rat :=
  (jsAdd (some (stageX / dpr / scaleX)) camX,
   jsAdd (some (stageY / dpr / scaleY)) camY)

/-- The world point carried by the owner's "mousedown" notification: the
handler calls `setXY` on the press event and triggers with the stored
`x`, `y`. -/
def mousedownPoint (dpr scaleX scaleY : Rat) (camX camY : Option Rat)
    (stageX stageY : Rat) : Option Rat × Option Rat :=
  setXY dpr scaleX scaleY camX camY stageX stageY

/-- `publicMethods.getWorldPointFromScreen`: note the source multiplies the
screen point by the device pixel ratio, `(sp.x * dpr) / scaleX + camera.x`. -/
def getWorldPointFromScreen (dpr scaleX scaleY : Rat) (camX camY : Option Rat)
    (spx spy : Rat) : Option Rat × Option Rat :=
  (jsAdd (some (spx * dpr / scaleX)) camX,
   jsAdd (some (spy * dpr / scaleY)) camY)

/-- The load-time arbitration scan over `owner.components`: remember the
last component that is this instance itself or whose `type` starts with the
14 characters "handler-render". -/
def lastHandlerScan (types : List String) (selfIdx : Nat) : Option Nat :=
  (List.range types.length).foldl
    (fun last i =>
      if i = selfIdx ∨ (types.getD i "").take 14 = "handler-render" then some i else last)
    none

/-- `handleChildren` after "load": true exactly when this instance was the
last match of the scan. -/
def loadHandleChildren (types : List String) (selfIdx : Nat) : Bool :=
  lastHandlerScan types selfIdx == some selfIdx

/-- The "handle-render-addition" listener the primary registers at load:
create the pending map on first use, then copy every key of the addition
into it. -/
def absorbAddition (h : Handler) (m : Msg) : Handler :=
  { h with extraContent := some (mergeKeys (h.extraContent.getD []) m) }

/-- Route a batch of actions to the primary's addition listener: each
"handle-render-addition" trigger is absorbed, everything else ignored. -/
def absorbAdditions (h : Handler) (acts : List Action) : Handler :=
  acts.foldl
    (fun h' a =>
      match a with
      | Action.handleRenderAddition m => absorbAddition h' m
      | _ => h')
    h

/-- Two render-handler instances on one owner, in attachment order. -/
structure TwoHandlers where
  first : Handler
  second : Handler
  deriving DecidableEq

/-- Modelled from the spec: the entity container (absent from the staged
sources) delivers one owner-level "tick" synchronously to each sibling
component, the primary's tick handler running before the secondary's — the
spec fixes this ordering through its effect: the secondary emits its
addition "so the primary instance can absorb it as extra content next
tick", so the addition reaches the primary's pending map only after the
primary has already merged and dispatched, and is merged on the following
tick. The trigger primitive routes each "handle-render-addition"
synchronously to the listener registered at load (the instance whose
`handleChildren` is true). Actions are tagged `false` for the
earlier-attached instance, `true` for the later-attached one. -/
def systemTick (s : TwoHandlers) (hasTriggerOnChildren : Bool) (delta : Rat) :
    TwoHandlers × List (Bool × Action) :=
  let rb := tick s.second hasTriggerOnChildren delta
  let first1 := if s.first.handleChildren then absorbAdditions s.first rb.2 else s.first
  let ra := tick first1 hasTriggerOnChildren delta
  let second1 := if rb.1.handleChildren then absorbAdditions rb.1 ra.2 else rb.1
  (⟨ra.1, second1⟩, rb.2.map (fun a => (true, a)) ++ ra.2.map (fun a => (false, a)))

/-! ### Association-map lemmas for the render message and the pending map -/

theorem lookupKey_setKey_self (m : Msg) (k : String) (v : JSVal) :
    lookupKey (setKey m k v) k = some v := by
  induction m with
  | nil => simp [setKey, lookupKey]
  | cons kv m ih =>
    by_cases h : kv.1 = k
    · simp [setKey, h, lookupKey]
    · simp [setKey, h, lookupKey, ih]

theorem lookupKey_setKey_ne (m : Msg) (k k' : String) (v : JSVal) (h : k' ≠ k) :
    lookupKey (setKey m k' v) k = lookupKey m k := by
  induction m with
  | nil => simp [setKey, lookupKey, h]
  | cons kv m ih =>
    by_cases hk : kv.1 = k'
    · simp [setKey, hk, lookupKey, h]
    · simp [setKey, hk, lookupKey, ih]

theorem lookupKey_eq_none_of_not_mem (m : Msg) (k : String) (h : k ∉ keysOf m) :
    lookupKey m k = none := by
  induction m with
  | nil => simp [lookupKey]
  | cons kv m ih =>
    simp only [keysOf, List.map_cons, List.mem_cons, not_or] at h
    have hne : ¬ kv.1 = k := fun hh => h.1 hh.symm
    simp only [lookupKey, if_neg hne]
    exact ih h.2

theorem not_mem_keysOf_of_hasKey_eq_false (m : Msg) (k : String)
    (h : hasKey m k = false) : k ∉ keysOf m := by
  intro hmem
  induction m with
  | nil => simp [keysOf] at hmem
  | cons kv m ih =>
    simp only [keysOf, List.map_cons, List.mem_cons] at hmem
    rcases hmem with heq | hmem
    · simp [hasKey, lookupKey, heq.symm] at h
    · refine ih ?_ (by simpa [keysOf] using hmem)
      by_cases hk : kv.1 = k
      · simp [hasKey, lookupKey, hk] at h
      · simpa [hasKey, lookupKey, hk] using h

theorem setKey_of_fresh (m : Msg) (k : String) (v : JSVal) (h : k ∉ keysOf m) :
    setKey m k v = m ++ [(k, v)] := by
  induction m with
  | nil => simp [setKey]
  | cons kv m ih =>
    simp only [keysOf, List.map_cons, List.mem_cons, not_or] at h
    have hne : ¬ kv.1 = k := fun hh => h.1 hh.symm
    simp [setKey, hne, ih h.2]

theorem mergeKeys_of_fresh (src : Msg) :
    ∀ m : Msg, (∀ k ∈ keysOf src, k ∉ keysOf m) → (keysOf src).Nodup →
      mergeKeys m src = m ++ src := by
  induction src with
  | nil => intro m _ _; simp [mergeKeys]
  | cons kv src ih =>
    intro m hf hnd
    have hnd' : kv.1 ∉ keysOf src ∧ (keysOf src).Nodup := by
      simpa [keysOf] using hnd
    have h1 : kv.1 ∉ keysOf m := hf kv.1 (by simp [keysOf])
    have hstep : mergeKeys m (kv :: src) = mergeKeys (m ++ [kv]) src := by
      simp [mergeKeys, setKey_of_fresh m kv.1 kv.2 h1]
    rw [hstep, ih (m ++ [kv]) ?_ hnd'.2]
    · simp
    · intro k hk hmem
      have hkm : k ∉ keysOf m := hf k (by
        simp only [keysOf, List.map_cons, List.mem_cons]
        exact Or.inr hk)
      simp only [keysOf, List.map_append, List.map_cons, List.map_nil, List.mem_append,
        List.mem_cons, List.not_mem_nil, or_false] at hmem
      rcases hmem with hm | he
      · exact hkm hm
      · exact hnd'.1 (he ▸ hk)

theorem lookupKey_mergeKeys_of_not_mem (src : Msg) :
    ∀ m : Msg, ∀ k, k ∉ keysOf src → lookupKey (mergeKeys m src) k = lookupKey m k := by
  induction src with
  | nil => intro m k _; simp [mergeKeys]
  | cons kv src ih =>
    intro m k hk
    simp only [keysOf, List.map_cons, List.mem_cons] at hk
    push_neg at hk
    have hstep : mergeKeys m (kv :: src) = mergeKeys (setKey m kv.1 kv.2) src := by
      simp [mergeKeys]
    rw [hstep, ih _ k (by simpa [keysOf] using hk.2),
      lookupKey_setKey_ne m k kv.1 kv.2 (fun hh => hk.1 hh.symm)]

theorem lookupKey_mergeKeys_of_lookup (src : Msg) :
    ∀ m : Msg, ∀ k v, (keysOf src).Nodup → lookupKey src k = some v →
      lookupKey (mergeKeys m src) k = some v := by
  induction src with
  | nil => intro m k v _ h; simp [lookupKey] at h
  | cons kv src ih =>
    intro m k v hnd h
    simp only [keysOf, List.map_cons, List.nodup_cons] at hnd
    have hstep : mergeKeys m (kv :: src) = mergeKeys (setKey m kv.1 kv.2) src := by
      simp [mergeKeys]
    by_cases hk : kv.1 = k
    · have hv : v = kv.2 := by
        simp [lookupKey, hk] at h
        exact h.symm
      subst hv
      rw [hstep, lookupKey_mergeKeys_of_not_mem src _ k (fun hmem => hnd.1 (hk ▸ hmem)),
        ← hk, lookupKey_setKey_self]
    · have h2 : lookupKey src k = some v := by simpa [lookupKey, hk] using h
      rw [hstep]
      exact ih _ k v hnd.2 h2

theorem keysOf_setKey_of_mem (m : Msg) (k : String) (v : JSVal) (h : k ∈ keysOf m) :
    keysOf (setKey m k v) = keysOf m := by
  induction m with
  | nil => simp [keysOf] at h
  | cons kv m ih =>
    by_cases hk : kv.1 = k
    · simp [setKey, hk, keysOf]
    · have h' : k ∈ keysOf m := by
        rcases (by simpa [keysOf] using h : k = kv.1 ∨ k ∈ keysOf m) with he | hm
        · exact absurd he.symm hk
        · exact hm
      simp [setKey, hk, keysOf]
      simpa [keysOf] using ih h'

theorem nodup_keysOf_setKey (m : Msg) (k : String) (v : JSVal)
    (h : (keysOf m).Nodup) : (keysOf (setKey m k v)).Nodup := by
  by_cases hk : k ∈ keysOf m
  · rw [keysOf_setKey_of_mem m k v hk]; exact h
  · rw [setKey_of_fresh m k v hk]
    have hkeys : keysOf (m ++ [(k, v)]) = keysOf m ++ [k] := by simp [keysOf]
    rw [hkeys]
    refine List.Nodup.append h (List.nodup_singleton k) ?_
    intro a ha hb
    rw [List.mem_singleton] at hb
    exact hk (hb ▸ ha)

theorem nodup_keysOf_mergeKeys (src : Msg) :
    ∀ m : Msg, (keysOf m).Nodup → (keysOf (mergeKeys m src)).Nodup := by
  induction src with
  | nil => intro m h; simpa [mergeKeys] using h
  | cons kv src ih =>
    intro m h
    have hstep : mergeKeys m (kv :: src) = mergeKeys (setKey m kv.1 kv.2) src := by
      simp [mergeKeys]
    rw [hstep]
    exact ih _ (nodup_keysOf_setKey m kv.1 kv.2 h)

theorem deleteKeys_append (a b : Msg) (ks : List String) :
    deleteKeys (a ++ b) ks = deleteKeys a ks ++ deleteKeys b ks := by
  simp [deleteKeys, List.filter_append]

theorem deleteKeys_self (m : Msg) : deleteKeys m (keysOf m) = [] := by
  rw [deleteKeys, List.filter_eq_nil_iff]
  intro kv hkv
  have hmem : kv.1 ∈ keysOf m := by
    simp only [keysOf, List.mem_map]
    exact ⟨kv, hkv, rfl⟩
  simpa using hmem

theorem deleteKeys_of_disjoint (m : Msg) (ks : List String)
    (h : ∀ kv ∈ m, kv.1 ∉ ks) : deleteKeys m ks = m := by
  rw [deleteKeys, List.filter_eq_self]
  intro kv hkv
  simpa using h kv hkv

/-! ### Stability of the depth sort -/

theorem filter_orderedInsert_of_z (c : Child) (k : Rat) (h : c.z = k) :
    ∀ l : List Child,
      (List.orderedInsert zLe c l).filter (fun d => d.z == k) =
        c :: l.filter (fun d => d.z == k) := by
  intro l
  induction l with
  | nil => simp [List.orderedInsert, h]
  | cons b l ih =>
    by_cases hb : zLe c b
    · simp [List.orderedInsert, hb, h]
    · have hbz : ¬ b.z = k := by
        intro he
        exact hb (by simp [zLe, h, he])
      simp only [List.orderedInsert, if_neg hb]
      simp [List.filter_cons, hbz, ih]

theorem filter_orderedInsert_of_ne (c : Child) (k : Rat) (h : ¬ c.z = k) :
    ∀ l : List Child,
      (List.orderedInsert zLe c l).filter (fun d => d.z == k) =
        l.filter (fun d => d.z == k) := by
  intro l
  induction l with
  | nil => simp [List.orderedInsert, h]
  | cons b l ih =>
    by_cases hb : zLe c b
    · simp [List.orderedInsert, hb, h]
    · simp only [List.orderedInsert, if_neg hb]
      simp only [List.filter_cons, ih]

/-- Stability of the modelled `sortChildren`: the subsequence of children
sharing any one depth key is untouched. -/
theorem filter_sortChildren (l : List Child) (k : Rat) :
    (sortChildren l).filter (fun d => d.z == k) = l.filter (fun d => d.z == k) := by
  induction l with
  | nil => simp [sortChildren, List.insertionSort]
  | cons c l ih =>
    by_cases h : c.z = k
    · rw [sortChildren, List.insertionSort, filter_orderedInsert_of_z c k h]
      simp [h, ← ih, sortChildren]
    · rw [sortChildren, List.insertionSort, filter_orderedInsert_of_ne c k h]
      simp [h, ← ih, sortChildren]

/-- The modelled `sortChildren` orders children by ascending depth key. -/
theorem sortChildren_sorted (l : List Child) :
    (sortChildren l).Pairwise zLe :=
  List.sorted_insertionSort zLe l

/-- The modelled `sortChildren` permutes the child list. -/
theorem sortChildren_perm (l : List Child) : List.Perm (sortChildren l) l :=
  List.perm_insertionSort zLe l

/-! ### Facts about the per-child pass -/

theorem propagatePause_visible (p : Rat) (c : Child) :
    (propagatePause p c).visible = c.visible := by
  unfold propagatePause
  split
  · split
    · rfl
    · split <;> rfl
  · rfl

theorem propagatePause_name (p : Rat) (c : Child) :
    (propagatePause p c).name = c.name := by
  unfold propagatePause
  split
  · split
    · rfl
    · split <;> rfl
  · rfl

theorem cullVisibility_visible (cam : Camera) (c : Child) (cx cy : Rat)
    (hx : cam.x = some cx) (hy : cam.y = some cy) :
    (cullVisibility cam c).visible =
      (if c.hidden then false
       else if c.name = "entity-managed" then c.visible
       else c.bounds.elim true (fun b =>
         decide (b.x + b.width ≥ cx ∧ b.x ≤ cx + cam.width ∧
                 b.y + b.height ≥ cy ∧ b.y ≤ cy + cam.height))) := by
  unfold cullVisibility
  by_cases hh : c.hidden
  · simp [hh]
  · simp only [hh, Bool.false_eq_true, if_false]
    by_cases hn : c.name = "entity-managed"
    · simp [hn]
    · cases hb : c.bounds with
      | none => simp [hn, hb]
      | some b =>
        have hov : boundsOverlap cam b =
            decide (b.x + b.width ≥ cx ∧ b.x ≤ cx + cam.width ∧
                    b.y + b.height ≥ cy ∧ b.y ≤ cy + cam.height) := by
          simp [boundsOverlap, jsGe, jsLe, jsAdd, hx, hy, Bool.decide_and, Bool.and_assoc]
        simp only [hn, hb]
        cases hc : boundsOverlap cam b <;> simp_all

/-! ### Claim theorems -/

/-- C1 (the claim fails on the code): the public query multiplies the screen
point by the device pixel ratio where the Pointer Translator's `setXY`
divides by it. At screen point (100, 50) with device pixel ratio 2, stage
scale 1 and camera origin (0, 0), the query answers (200, 100) while the
Translator's formula gives (50, 25). -/
theorem getWorldPointFromScreen_ne_setXY :
    getWorldPointFromScreen 2 1 1 (some 0) (some 0) 100 50 = (some 200, some 100) ∧
    setXY 2 1 1 (some 0) (some 0) 100 50 = (some 50, some 25) ∧
    getWorldPointFromScreen 2 1 1 (some 0) (some 0) 100 50 ≠
      setXY 2 1 1 (some 0) (some 0) 100 50 := by
  refine ⟨?_, ?_, ?_⟩
  · norm_num [getWorldPointFromScreen, jsAdd]
  · norm_num [setXY, jsAdd]
  · norm_num [getWorldPointFromScreen, setXY, jsAdd, Prod.ext_iff]

/-- C5: on a tick with the stage present the per-child pass computes
`visible` exactly as claimed — false when force-hidden, untouched for the
sentinel name, else true exactly when bounds are absent or the closed-interval
overlap test against the camera rectangle succeeds. -/
theorem cullChild_visible_eq (cam : Camera) (p : Rat) (c : Child) (cx cy : Rat)
    (hx : cam.x = some cx) (hy : cam.y = some cy) :
    (cullChild cam p c).visible =
      (if c.hidden then false
       else if c.name = "entity-managed" then c.visible
       else c.bounds.elim true (fun b =>
         decide (b.x + b.width ≥ cx ∧ b.x ≤ cx + cam.width ∧
                 b.y + b.height ≥ cy ∧ b.y ≤ cy + cam.height))) := by
  rw [cullChild, propagatePause_visible]
  exact cullVisibility_visible cam c cx cy hx hy

/-- C5 witness, the spec's scenario: a child with bounds
(x 150, y 0, w 10, h 10) under camera rectangle (0, 0, 100, 100) ends not
visible; after the camera moves to x = 60 it ends visible (the touching
edge at x = 160 counts as overlap). -/
theorem cullChild_visible_eq_witness :
    (cullChild ⟨0, 0, some 0, some 0, 100, 100⟩ 0
        ⟨"tile", false, true, false, 0, some ⟨150, 0, 10, 10⟩⟩).visible = false ∧
    (cullChild ⟨0, 0, some 60, some 0, 100, 100⟩ 0
        ⟨"tile", false, false, false, 0, some ⟨150, 0, 10, 10⟩⟩).visible = true := by
  constructor
  · rw [cullChild_visible_eq ⟨0, 0, some 0, some 0, 100, 100⟩ 0
      ⟨"tile", false, true, false, 0, some ⟨150, 0, 10, 10⟩⟩ 0 0 rfl rfl]
    norm_num
    decide
  · rw [cullChild_visible_eq ⟨0, 0, some 60, some 0, 100, 100⟩ 0
      ⟨"tile", false, false, false, 0, some ⟨150, 0, 10, 10⟩⟩ 60 0 rfl rfl]
    norm_num
    decide

/-- C7 counterexample: the per-child pass does mutate `visible` on a
sentinel-named child when its `hidden` flag is set — the force-hide branch
runs before the sentinel exemption is consulted. -/
theorem cullChild_sentinel_hidden_cex :
    (⟨"entity-managed", true, true, false, 0, none⟩ : Child).visible = true ∧
    (cullChild ⟨0, 0, some 0, some 0, 100, 100⟩ 0
        ⟨"entity-managed", true, true, false, 0, none⟩).visible = false := by
  refine ⟨rfl, by decide⟩

/-- C7 as amended: the cull pass leaves `visible` of a sentinel-named child
untouched provided the child is not force-hidden; a hidden sentinel child is
force-hidden like any other child. -/
theorem cullChild_sentinel_untouched (cam : Camera) (p : Rat) (c : Child)
    (hn : c.name = "entity-managed") (hh : c.hidden = false) :
    (cullChild cam p c).visible = c.visible := by
  rw [cullChild, propagatePause_visible]
  unfold cullVisibility
  simp [hn, hh]

/-- C7 amended witness: a non-hidden sentinel child far outside the camera
keeps `visible = true`. -/
theorem cullChild_sentinel_untouched_witness :
    (cullChild ⟨0, 0, some 0, some 0, 100, 100⟩ 0
        ⟨"entity-managed", false, true, false, 0, some ⟨1000, 1000, 10, 10⟩⟩).visible = true :=
  cullChild_sentinel_untouched ⟨0, 0, some 0, some 0, 100, 100⟩ 0
    ⟨"entity-managed", false, true, false, 0, some ⟨1000, 1000, 10, 10⟩⟩ rfl rfl

/-- C9: the world point delivered with the owner's mousedown notification is
`(stagePixel / devicePixelRatio) / stageScale + cameraOrigin` per axis; in
particular a press at device pixel (100, 50) with device pixel ratio 2,
stage scale 1 and camera origin (0, 0) is delivered as (50, 25). -/
theorem mousedown_world_formula (dpr sx sy cx cy stageX stageY : Rat) :
    mousedownPoint dpr sx sy (some cx) (some cy) stageX stageY =
      (some (stageX / dpr / sx + cx), some (stageY / dpr / sy + cy)) ∧
    mousedownPoint 2 1 1 (some 0) (some 0) 100 50 = (some 50, some 25) := by
  refine ⟨by simp [mousedownPoint, setXY, jsAdd], by norm_num [mousedownPoint, setXY, jsAdd]⟩

/-- C10: before any camera-update the constructor-made camera has `x` and
`y` unassigned (it sets `left` and `top` instead), camera-update is what
writes `x` and `y`, a tick never writes the camera, and under the initial
camera every non-hidden, non-sentinel child with present bounds is culled
to invisible (every comparison against the undefined origin fails). -/
theorem initCamera_cull_invisible (p : Rat) (c : Child) (b : Bounds)
    (hh : c.hidden = false) (hn : c.name ≠ "entity-managed") (hb : c.bounds = some b) :
    initCamera.x = none ∧ initCamera.y = none ∧
    initCamera.left = 0 ∧ initCamera.top = 0 ∧
    (∀ (cam : Camera) (ci : CameraInfo),
      (cameraUpdateCamera cam ci).x = some ci.viewportLeft ∧
      (cameraUpdateCamera cam ci).y = some ci.viewportTop) ∧
    (∀ (h : Handler) (teoc : Bool) (delta : Rat),
      (tick h teoc delta).1.camera = h.camera) ∧
    (cullChild initCamera p c).visible = false := by
  refine ⟨rfl, rfl, rfl, rfl, fun cam ci => ⟨rfl, rfl⟩, ?_, ?_⟩
  · intro h teoc delta
    unfold tick
    cases h.stage <;> rfl
  · rw [cullChild, propagatePause_visible]
    unfold cullVisibility
    simp [hh, hn, hb, boundsOverlap, jsGe, initCamera]

/-- C10 witness: a concrete bounded child is culled invisible under the
constructor-made camera. -/
theorem initCamera_cull_invisible_witness :
    (cullChild initCamera 0
        ⟨"tile", false, true, false, 0, some ⟨0, 0, 10, 10⟩⟩).visible = false :=
  (initCamera_cull_invisible 0 ⟨"tile", false, true, false, 0, some ⟨0, 0, 10, 10⟩⟩
    ⟨0, 0, 10, 10⟩ rfl (by decide) rfl).2.2.2.2.2.2

/-- C8: the pause countdown never goes negative: a positive countdown loses
the elapsed delta clamped at a floor of 0, hitting 0 (the unpaused value) on
the tick it crosses zero; a pause request with a (truthy) time sets the
countdown to that time, one without a time sets the indefinite marker -1,
an unpause request sets 0. -/
theorem tickPaused_clamped (p delta t : Rat) (hp : 0 ≤ p) (ht : t ≠ 0) :
    0 ≤ tickPaused p delta ∧
    (0 < p → tickPaused p delta = max (p - delta) 0) ∧
    (0 < p → p ≤ delta → tickPaused p delta = 0) ∧
    pauseRender (some t) = t ∧
    pauseRender none = -1 ∧
    unpauseRender = 0 := by
  have hmax : 0 < p → tickPaused p delta = max (p - delta) 0 := by
    intro hpos
    unfold tickPaused
    rw [if_pos hpos]
    rcases le_or_lt 0 (p - delta) with h | h
    · rw [if_neg (not_lt.mpr h), max_eq_left h]
    · rw [if_pos h, max_eq_right (le_of_lt h)]
  refine ⟨?_, hmax, ?_, by simp [pauseRender, ht], rfl, rfl⟩
  · rcases lt_or_eq_of_le hp with hpos | hzero
    · rw [hmax hpos]
      exact le_max_right _ _
    · unfold tickPaused
      rw [if_neg (by rw [← hzero]; exact lt_irrefl 0)]
      exact hp
  · intro hpos hle
    rw [hmax hpos, max_eq_right (by linarith)]

/-- C8 witness: countdown 3 under delta 5 clamps to 0 (and is unpaused on
that very tick); pause for 7 sets 7, pause without a time sets -1, unpause
sets 0. -/
theorem tickPaused_clamped_witness :
    0 ≤ tickPaused 3 5 ∧
    (0 < (3 : Rat) → tickPaused 3 5 = max (3 - 5) 0) ∧
    (0 < (3 : Rat) → (3 : Rat) ≤ 5 → tickPaused 3 5 = 0) ∧
    pauseRender (some 7) = 7 ∧
    pauseRender none = -1 ∧
    unpauseRender = 0 :=
  tickPaused_clamped 3 5 7 (by norm_num) (by norm_num)

/-- C6: on a tick with the stage present the resulting stage is the culled
stage passed through the conditional re-sort; that re-sort leaves the stage
untouched when the reorder flag is clear, and when the flag is set it clears
the flag and stably sorts the children by ascending depth key: the result is
pairwise `zLe`-ordered, a permutation, and the children at any fixed depth
key keep their prior relative order. -/
theorem tick_sort_iff_reorder (st : Stage) (k : Rat) :
    (∀ (h : Handler) (teoc : Bool) (delta : Rat), h.stage = some st →
      (tick h teoc delta).1.stage =
        some (applySort
          { st with children :=
              st.children.map (cullChild h.camera (tickPaused h.paused delta)) })) ∧
    (st.reorder = false → applySort st = st) ∧
    (st.reorder = true →
      (applySort st).children = sortChildren st.children ∧
      (applySort st).reorder = false) ∧
    (sortChildren st.children).Pairwise zLe ∧
    (sortChildren st.children).filter (fun d => d.z == k) =
      st.children.filter (fun d => d.z == k) ∧
    List.Perm (sortChildren st.children) st.children := by
  refine ⟨?_, ?_, ?_, sortChildren_sorted st.children, filter_sortChildren st.children k,
    sortChildren_perm st.children⟩
  · intro h teoc delta hs
    obtain ⟨stg, cam, rm, hc, ec, pz⟩ := h
    simp only at hs
    subst hs
    simp [tick]
  · intro hr
    simp [applySort, hr]
  · intro hr
    simp [applySort, hr]

/-- A primary handler with pending extra content containing keys that
collide with the base fields, exactly what one absorbed secondary addition
leaves behind. -/
def collidingHandler : Handler :=
  { stage := none, camera := initCamera,
    renderMessage := [("delta", JSVal.num 0), ("stage", JSVal.stageRef 1)],
    handleChildren := true,
    extraContent := some [("delta", JSVal.num 3), ("stage", JSVal.stageRef 2)],
    paused := 0 }

/-- C2 counterexample: after a dispatch whose pending extra content came
from a secondary's addition payload (hence contains keys "delta" and
"stage"), the cleanup loop deletes the base fields too — immediately after
dispatch the render message is empty, retaining neither delta nor stage. -/
theorem tick_deletes_base_fields_cex :
    hasKey (tick collidingHandler true 5).1.renderMessage "delta" = false ∧
    hasKey (tick collidingHandler true 5).1.renderMessage "stage" = false ∧
    (tick collidingHandler true 5).1.renderMessage = [] := by
  refine ⟨by decide, by decide, by decide⟩

/-- C2 as amended: the cleanup is exact when the pending extra-content keys
do not collide with the base fields — after dispatch every merged key is
gone from the message and from the pending map, and delta and stage are
retained; when the extra content itself carries "delta"/"stage" keys (as a
secondary's addition payload does) those base fields are deleted with it. -/
theorem tick_extraContent_cleanup (h : Handler) (ec : Msg) (d s : JSVal)
    (teoc : Bool) (delta : Rat)
    (hm : h.renderMessage = [("delta", d), ("stage", s)])
    (hec : h.extraContent = some ec)
    (hnd : (keysOf ec).Nodup)
    (hdel : hasKey ec "delta" = false)
    (hst : hasKey ec "stage" = false)
    (hhc : h.handleChildren = true) :
    (tick h teoc delta).1.renderMessage = [("delta", JSVal.num delta), ("stage", s)] ∧
    (tick h teoc delta).1.extraContent = some [] := by
  obtain ⟨stg, cam, rm, hc, ecf, pz⟩ := h
  simp only at hm hec hhc
  subst hm
  subst hec
  subst hhc
  have hd' := not_mem_keysOf_of_hasKey_eq_false ec "delta" hdel
  have hs' := not_mem_keysOf_of_hasKey_eq_false ec "stage" hst
  have hm0 : setKey [("delta", d), ("stage", s)] "delta" (JSVal.num delta) =
      [("delta", JSVal.num delta), ("stage", s)] := by
    simp [setKey]
  have hfresh : ∀ kk ∈ keysOf ec, kk ∉ keysOf [("delta", JSVal.num delta), ("stage", s)] := by
    intro kk hk hmem
    rcases (by simpa [keysOf] using hmem : kk = "delta" ∨ kk = "stage") with he | he
    · exact hd' (he ▸ hk)
    · exact hs' (he ▸ hk)
  have hmerge := mergeKeys_of_fresh ec [("delta", JSVal.num delta), ("stage", s)] hfresh hnd
  have hdisj : deleteKeys [("delta", JSVal.num delta), ("stage", s)] (keysOf ec) =
      [("delta", JSVal.num delta), ("stage", s)] := by
    apply deleteKeys_of_disjoint
    intro kv hkv
    rcases (by simpa using hkv :
        kv = ("delta", JSVal.num delta) ∨ kv = ("stage", s)) with he | he <;> subst he
    · exact hd'
    · exact hs'
  have hclean : deleteKeys (("delta", JSVal.num delta) :: ("stage", s) :: ec) (keysOf ec) =
      [("delta", JSVal.num delta), ("stage", s)] := by
    have happ := deleteKeys_append [("delta", JSVal.num delta), ("stage", s)] ec (keysOf ec)
    simpa [hdisj, deleteKeys_self] using happ
  cases stg <;>
    simp [tick, hm0, hmerge, hclean, deleteKeys_self]

/-- A primary handler whose pending extra content is a single
non-colliding key. -/
def cleanupSample : Handler :=
  { stage := none, camera := initCamera,
    renderMessage := [("delta", JSVal.num 0), ("stage", JSVal.stageRef 1)],
    handleChildren := true,
    extraContent := some [("worldCamera", JSVal.num 9)],
    paused := 0 }

/-- C2 amended witness: a non-colliding pending key is merged for the
dispatch and cleaned away after, leaving exactly delta and stage. -/
theorem tick_extraContent_cleanup_witness :
    (tick cleanupSample true 5).1.renderMessage =
      [("delta", JSVal.num 5), ("stage", JSVal.stageRef 1)] ∧
    (tick cleanupSample true 5).1.extraContent = some [] :=
  tick_extraContent_cleanup cleanupSample [("worldCamera", JSVal.num 9)]
    (JSVal.num 0) (JSVal.stageRef 1) true 5 rfl rfl (by decide) (by decide) (by decide) rfl

/-- A destroyed primary handler: `destroy` has nulled the stage. -/
def destroyedPrimary : Handler :=
  destroy
    { stage := some { children := [], reorder := false, scaleX := 1, scaleY := 1 },
      camera := initCamera,
      renderMessage := [("delta", JSVal.num 0), ("stage", JSVal.stageRef 0)],
      handleChildren := true, extraContent := none, paused := 0 }

/-- C3 counterexample: a tick delivered after destruction still performs an
observable action — the "handle-render" broadcast to children happens before
the stage check. -/
theorem tick_after_destroy_dispatches_cex :
    (tick destroyedPrimary true 7).2 =
      [Action.handleRender [("delta", JSVal.num 7), ("stage", JSVal.stageRef 0)]] := by
  decide

/-- C3 as amended: with the stage reference absent a tick performs no sort,
no stage update, no telemetry and no child visibility/pause mutation (there
is no stage to mutate), and the camera is untouched — but the render
dispatch still happens (the "handle-render" broadcast for a primary, the
"handle-render-addition" trigger for a secondary) and the pause countdown
still advances. -/
theorem tick_stage_absent (h : Handler) (teoc : Bool) (delta : Rat)
    (hs : h.stage = none) :
    (∀ a ∈ (tick h teoc delta).2,
      (∃ m, a = Action.handleRender m) ∨ (∃ m, a = Action.handleRenderAddition m)) ∧
    (tick h teoc delta).1.stage = none ∧
    (tick h teoc delta).1.camera = h.camera ∧
    (tick h teoc delta).1.paused = tickPaused h.paused delta ∧
    (h.handleChildren = false →
      (tick h teoc delta).2 =
        [Action.handleRenderAddition (setKey h.renderMessage "delta" (JSVal.num delta))]) ∧
    (h.handleChildren = true → teoc = true →
      ∃ m, (tick h teoc delta).2 = [Action.handleRender m]) := by
  obtain ⟨stg, cam, rm, hc, ec, pz⟩ := h
  simp only at hs
  subst hs
  cases hc <;> cases ec <;> cases teoc <;> simp [tick]

/-- A destroyed secondary handler. -/
def destroyedSecondary : Handler :=
  { stage := none, camera := initCamera,
    renderMessage := [("delta", JSVal.num 0), ("stage", JSVal.stageRef 3)],
    handleChildren := false, extraContent := none, paused := 0 }

/-- C3 amended witness at a concrete destroyed secondary. -/
theorem tick_stage_absent_witness :
    (∀ a ∈ (tick destroyedSecondary true 7).2,
      (∃ m, a = Action.handleRender m) ∨ (∃ m, a = Action.handleRenderAddition m)) ∧
    (tick destroyedSecondary true 7).1.stage = none ∧
    (tick destroyedSecondary true 7).1.camera = destroyedSecondary.camera ∧
    (tick destroyedSecondary true 7).1.paused = tickPaused destroyedSecondary.paused 7 ∧
    (destroyedSecondary.handleChildren = false →
      (tick destroyedSecondary true 7).2 =
        [Action.handleRenderAddition
          (setKey destroyedSecondary.renderMessage "delta" (JSVal.num 7))]) ∧
    (destroyedSecondary.handleChildren = true → true = true →
      ∃ m, (tick destroyedSecondary true 7).2 = [Action.handleRender m]) :=
  tick_stage_absent destroyedSecondary true 7 rfl

/-! ### Two coexisting handler instances (C4) -/

/-- The message a primary dispatches on a tick: the base message with
`delta` set, with any pending extra content merged over it. -/
def primaryDispatchMsg (h : Handler) (delta : Rat) : Msg :=
  match h.extraContent with
  | some ec => mergeKeys (setKey h.renderMessage "delta" (JSVal.num delta)) ec
  | none => setKey h.renderMessage "delta" (JSVal.num delta)

theorem absorbAdditions_no_additions (tail : List Action)
    (ht : ∀ a ∈ tail, (a = Action.stageUpdate ∨ ∃ ph, a = Action.timeElapsed ph)) :
    ∀ h : Handler, absorbAdditions h tail = h := by
  induction tail with
  | nil => intro h; rfl
  | cons a tail ih =>
    intro h
    have hrest : ∀ b ∈ tail, (b = Action.stageUpdate ∨ ∃ ph, b = Action.timeElapsed ph) :=
      fun b hb => ht b (List.mem_cons_of_mem a hb)
    rcases ht a (List.mem_cons_self a tail) with ha | ⟨ph, ha⟩ <;> subst ha <;>
      exact ih hrest h

theorem absorbAdditions_cons_addition (h : Handler) (m : Msg) (tail : List Action)
    (ht : ∀ a ∈ tail, (a = Action.stageUpdate ∨ ∃ ph, a = Action.timeElapsed ph)) :
    absorbAdditions h (Action.handleRenderAddition m :: tail) = absorbAddition h m := by
  have hstep : absorbAdditions h (Action.handleRenderAddition m :: tail) =
      absorbAdditions (absorbAddition h m) tail := rfl
  rw [hstep, absorbAdditions_no_additions tail ht]

theorem tick_actions_secondary (h : Handler) (teoc : Bool) (delta : Rat)
    (hc : h.handleChildren = false) :
    ∃ tail,
      (tick h teoc delta).2 =
        Action.handleRenderAddition (setKey h.renderMessage "delta" (JSVal.num delta)) :: tail ∧
      ∀ a ∈ tail, (a = Action.stageUpdate ∨ ∃ ph, a = Action.timeElapsed ph) := by
  obtain ⟨stg, cam, rm, hcf, ec, pz⟩ := h
  simp only at hc
  subst hc
  cases stg <;> simp [tick]

theorem tick_actions_primary (h : Handler) (delta : Rat)
    (hc : h.handleChildren = true) :
    ∃ tail,
      (tick h true delta).2 = Action.handleRender (primaryDispatchMsg h delta) :: tail ∧
      ∀ a ∈ tail, (a = Action.stageUpdate ∨ ∃ ph, a = Action.timeElapsed ph) := by
  obtain ⟨stg, cam, rm, hcf, ec, pz⟩ := h
  simp only at hc
  subst hc
  cases stg <;> cases ec <;> simp [tick, primaryDispatchMsg]

theorem tick_handleChildren (h : Handler) (teoc : Bool) (delta : Rat) :
    (tick h teoc delta).1.handleChildren = h.handleChildren := by
  unfold tick
  cases h.stage <;> rfl

theorem tick_extraContent_getD (h : Handler) (teoc : Bool) (delta : Rat)
    (hc : h.handleChildren = true) :
    (tick h teoc delta).1.extraContent.getD [] = [] := by
  obtain ⟨stg, cam, rm, hcf, ec, pz⟩ := h
  simp only at hc
  subst hc
  cases stg <;> cases ec <;> simp [tick, deleteKeys_self]

/-- C4: only the later-attached (primary) instance ever dispatches
"handle-render" to children; and a key contributed by the earlier-attached
(secondary) instance during tick T — one the primary's own message and
pending map do not already carry — is absent from every message dispatched
during tick T itself, and first appears, with the secondary's value, in the
primary's dispatched message on tick T+1, once the absorbed addition is
merged. -/
theorem systemTick_addition_next_tick (s : TwoHandlers) (delta delta' : Rat)
    (k : String) (v : JSVal)
    (hA : s.first.handleChildren = false)
    (hB : s.second.handleChildren = true)
    (hndA : (keysOf (setKey s.first.renderMessage "delta" (JSVal.num delta))).Nodup)
    (hkv : lookupKey (setKey s.first.renderMessage "delta" (JSVal.num delta)) k = some v)
    (hk1 : k ∉ keysOf (setKey s.second.renderMessage "delta" (JSVal.num delta)))
    (hk2 : k ∉ keysOf (s.second.extraContent.getD [])) :
    (∀ p ∈ (systemTick s true delta).2, ∀ m, p.2 = Action.handleRender m → p.1 = true) ∧
    (∀ p ∈ (systemTick s true delta).2, ∀ m, p.2 = Action.handleRender m →
      lookupKey m k = none) ∧
    (∃ m, (true, Action.handleRender m) ∈
        (systemTick (systemTick s true delta).1 true delta').2 ∧
      lookupKey m k = some v) := by
  obtain ⟨a, b⟩ := s
  dsimp only at hA hB hndA hkv hk1 hk2
  obtain ⟨tailB, htB, htailB⟩ := tick_actions_primary b delta hB
  obtain ⟨tailA, htA, htailA⟩ := tick_actions_secondary a true delta hA
  have hfirst1 : (if a.handleChildren = true
      then absorbAdditions a (tick b true delta).2 else a) = a := by
    rw [if_neg (by simp [hA])]
  have hsecond1 : (if (tick b true delta).1.handleChildren = true
      then absorbAdditions (tick b true delta).1 (tick a true delta).2
      else (tick b true delta).1) =
      absorbAddition (tick b true delta).1
        (setKey a.renderMessage "delta" (JSVal.num delta)) := by
    rw [if_pos (by rw [tick_handleChildren]; exact hB), htA]
    exact absorbAdditions_cons_addition _ _ tailA htailA
  have hacts : (systemTick ⟨a, b⟩ true delta).2 =
      (tick b true delta).2.map (fun x => (true, x)) ++
      (tick a true delta).2.map (fun x => (false, x)) := by
    simp only [systemTick]
    rw [hfirst1]
  have hstate : (systemTick ⟨a, b⟩ true delta).1 =
      ⟨(tick a true delta).1,
       absorbAddition (tick b true delta).1
         (setKey a.renderMessage "delta" (JSVal.num delta))⟩ := by
    simp only [systemTick]
    rw [hfirst1, hsecond1]
  have hlook : lookupKey (primaryDispatchMsg b delta) k = none := by
    rcases hec : b.extraContent with _ | ec
    · simp only [primaryDispatchMsg, hec]
      exact lookupKey_eq_none_of_not_mem _ k hk1
    · have hk2' : k ∉ keysOf ec := by
        rw [hec] at hk2
        simpa using hk2
      simp only [primaryDispatchMsg, hec]
      rw [lookupKey_mergeKeys_of_not_mem ec _ k hk2']
      exact lookupKey_eq_none_of_not_mem _ k hk1
  have honly : ∀ p ∈ (systemTick ⟨a, b⟩ true delta).2, ∀ m,
      p.2 = Action.handleRender m → p.1 = true ∧ m = primaryDispatchMsg b delta := by
    intro p hp m hpm
    rw [hacts] at hp
    rcases List.mem_append.mp hp with hpb | hpa
    · rcases List.mem_map.mp hpb with ⟨x, hx, hxe⟩
      subst hxe
      rw [htB] at hx
      simp only [List.mem_cons] at hx
      rcases hx with hx | hx
      · subst hx
        simp only at hpm
        simp at hpm
        exact ⟨rfl, hpm.symm⟩
      · rcases htailB x hx with hx' | ⟨ph, hx'⟩ <;> subst hx' <;> simp at hpm
    · rcases List.mem_map.mp hpa with ⟨x, hx, hxe⟩
      subst hxe
      rw [htA] at hx
      simp only [List.mem_cons] at hx
      rcases hx with hx | hx
      · subst hx
        simp at hpm
      · rcases htailA x hx with hx' | ⟨ph, hx'⟩ <;> subst hx' <;> simp at hpm
  have hb2c : (absorbAddition (tick b true delta).1
      (setKey a.renderMessage "delta" (JSVal.num delta))).handleChildren = true := by
    simp only [absorbAddition]
    rw [tick_handleChildren]
    exact hB
  obtain ⟨tailB', htB', htailB'⟩ :=
    tick_actions_primary
      (absorbAddition (tick b true delta).1 (setKey a.renderMessage "delta" (JSVal.num delta)))
      delta' hb2c
  have hmergenil :
      mergeKeys [] (setKey a.renderMessage "delta" (JSVal.num delta)) =
        setKey a.renderMessage "delta" (JSVal.num delta) := by
    have happ := mergeKeys_of_fresh (setKey a.renderMessage "delta" (JSVal.num delta)) []
      (by intro kk _hkk; simp [keysOf]) hndA
    simpa using happ
  have hdisp : primaryDispatchMsg
      (absorbAddition (tick b true delta).1 (setKey a.renderMessage "delta" (JSVal.num delta)))
      delta' =
      mergeKeys (setKey (tick b true delta).1.renderMessage "delta" (JSVal.num delta'))
        (setKey a.renderMessage "delta" (JSVal.num delta)) := by
    simp only [primaryDispatchMsg, absorbAddition, tick_extraContent_getD b true delta hB,
      hmergenil]
  refine ⟨fun p hp m hpm => (honly p hp m hpm).1,
    fun p hp m hpm => by rw [(honly p hp m hpm).2]; exact hlook, ?_⟩
  refine ⟨primaryDispatchMsg
      (absorbAddition (tick b true delta).1 (setKey a.renderMessage "delta" (JSVal.num delta)))
      delta', ?_, ?_⟩
  · rw [hstate]
    simp only [systemTick]
    apply List.mem_append.mpr
    left
    rw [htB']
    exact List.mem_map_of_mem _ (List.mem_cons_self _ _)
  · rw [hdisp]
    exact lookupKey_mergeKeys_of_lookup (setKey a.renderMessage "delta" (JSVal.num delta))
      (setKey (tick b true delta).1.renderMessage "delta" (JSVal.num delta')) k v hndA hkv

/-- The component types of two coexisting render-handler instances, under
the naming-convention prefix the spec's arbitration relies on. -/
def rhTypes : List String :=
  ["handler-render-createjs", "handler-render-createjs"]

/-- The earlier-attached instance: the load scan finds a later match, so it
is demoted to secondary. Its stage is the object tagged 1; its per-tick
message carries one extra field, "worldCamera", to contribute to the
primary. -/
def secondaryInst : Handler :=
  { stage := some { children := [], reorder := false, scaleX := 1, scaleY := 1 },
    camera := initCamera,
    renderMessage :=
      [("delta", JSVal.num 0), ("stage", JSVal.stageRef 1), ("worldCamera", JSVal.num 9)],
    handleChildren := loadHandleChildren rhTypes 0,
    extraContent := none, paused := 0 }

/-- The later-attached instance: the load scan finds itself last, so it is
the primary. Its stage is the object tagged 2. -/
def primaryInst : Handler :=
  { stage := some { children := [], reorder := false, scaleX := 1, scaleY := 1 },
    camera := initCamera,
    renderMessage := [("delta", JSVal.num 0), ("stage", JSVal.stageRef 2)],
    handleChildren := loadHandleChildren rhTypes 1,
    extraContent := none, paused := 0 }

/-- C4 witness at the concrete pair of instances: on the tick with delta 5
only the primary dispatches and no dispatched message carries the
secondary's "worldCamera" key; on the following tick (delta 6) the
primary's dispatched message carries it with the secondary's value. -/
theorem systemTick_addition_next_tick_witness :
    (∀ p ∈ (systemTick ⟨secondaryInst, primaryInst⟩ true 5).2,
      ∀ m, p.2 = Action.handleRender m → p.1 = true) ∧
    (∀ p ∈ (systemTick ⟨secondaryInst, primaryInst⟩ true 5).2,
      ∀ m, p.2 = Action.handleRender m → lookupKey m "worldCamera" = none) ∧
    (∃ m, (true, Action.handleRender m) ∈
        (systemTick (systemTick ⟨secondaryInst, primaryInst⟩ true 5).1 true 6).2 ∧
      lookupKey m "worldCamera" = some (JSVal.num 9)) :=
  systemTick_addition_next_tick ⟨secondaryInst, primaryInst⟩ 5 6 "worldCamera" (JSVal.num 9)
    (by decide) (by decide) (by decide) (by decide) (by decide) (by decide)

end Platypus
